import Mathlib

/-!
Verification of the turtle-graphics module (`turtle-graphics.js`).

A 3D vector is a triple of reals (the source stores it as a 3-element
array indexed by the constants `x = 0`, `y = 1`, `z = 2`).  The turtle
carries a position and an orthonormal frame (heading, normal), mutated by
`Move`, `Turn`, `Roll`, `Dive`, and renders onto a 2D canvas; we model
the canvas context as a trace of drawing commands (`Cmd`).
-/

namespace TurtleGraphics

/-- A vector in 3D space; fields `x`, `y`, `z` correspond to the array
indices 0, 1, 2 of the source. -/
@[ext] structure Vec3 where
  x : ℝ
  y : ℝ
  z : ℝ

/-- Array-style indexing of a `Vec3`, matching `v[c]` of the source
(indices 0, 1, 2; other indices never occur in the source). -/
def Vec3.nth (v : Vec3) : ℕ → ℝ
  | 0 => v.x
  | 1 => v.y
  | 2 => v.z
  | _ + 3 => 0

/-- Negation of a vector, componentwise (standard mathematical vocabulary,
used only to state anticommutativity of the cross product). -/
instance : Neg Vec3 := ⟨fun v => ⟨-v.x, -v.y, -v.z⟩⟩

theorem Vec3.neg_def (v : Vec3) : -v = ⟨-v.x, -v.y, -v.z⟩ := rfl

/-- Conversion factor for degrees to radians (`Degree = Math.PI / 180`). -/
noncomputable def Degree : ℝ := Real.pi / 180

/-- Linear combination `a * u + b * v`, componentwise (source `linear`). -/
def linear (a : ℝ) (u : Vec3) (b : ℝ) (v : Vec3) : Vec3 :=
  ⟨a * u.x + b * v.x, a * u.y + b * v.y, a * u.z + b * v.z⟩

/-- Cross product of `u` and `v` (source `cross`): component `c` is
`u[(c+1)%3] * v[(c+2)%3] - u[(c+2)%3] * v[(c+1)%3]`, written out for
`c = 0, 1, 2`. -/
def cross (u v : Vec3) : Vec3 :=
  ⟨u.y * v.z - u.z * v.y, u.z * v.x - u.x * v.z, u.x * v.y - u.y * v.x⟩

/-- Rotation of `u` in the direction of `v` about `w` over `alpha`
(source `rotateNormal`): `cos(alpha) * u + sin(alpha) * v`; the axis `w`
is not used by the formula, exactly as in the source. -/
noncomputable def rotateNormal (u v _w : Vec3) (alpha : ℝ) : Vec3 :=
  linear (Real.cos alpha) u (Real.sin alpha) v

/-- Euclidean inner product (standard mathematical vocabulary, used to
state the orthonormality invariants of the spec). -/
def dot (u v : Vec3) : ℝ := u.x * v.x + u.y * v.y + u.z * v.z

/-- Euclidean length of a vector. -/
noncomputable def norm3 (v : Vec3) : ℝ := Real.sqrt (dot v v)

/-- Drawing commands issued to the 2D canvas context.  `moveTo`/`lineTo`
take the canvas coordinates in the order the source passes them
(first argument canvas-x, which is the turtle-space y coordinate). -/
inductive Cmd where
  | save
  | restore
  | beginPath
  | closePath
  | moveTo (a b : ℝ)
  | lineTo (a b : ℝ)
  | setFillStyle (c : String)
  | setStrokeStyle (c : String)
  | fill
  | stroke
  | setLineWidth (w : ℝ)
  | setLineCap (s : String)
  | setLineJoin (s : String)

/-- The mutable state of a `Turtle` object: position and frame, pen
state, the unit length and the home point fixed by `Init` (the free-text
log is out-of-scope diagnostics). -/
structure TurtleState where
  position : Vec3
  heading : Vec3
  normal : Vec3
  pen : Bool
  penStyle : String
  penWidth : ℝ
  unit : ℝ
  home : Vec3

/-- `Turtle.prototype.Home`: put the turtle in its initial state
(`position = home`, `heading = [0,1,0]`, `normal = [0,0,1]`). -/
def Home (t : TurtleState) : TurtleState :=
  { t with position := t.home, heading := ⟨0, 1, 0⟩, normal := ⟨0, 0, 1⟩ }

/-- The state of a turtle right after `Init` (which sets
`home = [x0, y0, 0]`, `pen = true`, `penStyle = 'black'`, `penWidth = 2`
and then calls `Home()`). -/
def initialTurtle (x0 y0 unit : ℝ) : TurtleState :=
  { position := ⟨x0, y0, 0⟩
    heading := ⟨0, 1, 0⟩
    normal := ⟨0, 0, 1⟩
    pen := true
    penStyle := "black"
    penWidth := 2
    unit := unit
    home := ⟨x0, y0, 0⟩ }

/-- `Turtle.prototype.Move(d)`: advance the position by `d * unit` along
the heading; when the pen is active, also stroke a segment on the canvas
from the old to the new projected position (turtle `[a,b,c]` is drawn at
canvas `(b, a)`). -/
def Move (t : TurtleState) (d : ℝ) : TurtleState × List Cmd :=
  let newposition := linear 1 t.position (d * t.unit) t.heading
  ({ t with position := newposition },
    if t.pen then
      [Cmd.save, Cmd.setLineCap "round", Cmd.setLineJoin "round",
        Cmd.setLineWidth t.penWidth, Cmd.setStrokeStyle t.penStyle,
        Cmd.beginPath,
        Cmd.moveTo t.position.y t.position.x,
        Cmd.lineTo newposition.y newposition.x,
        Cmd.stroke, Cmd.restore]
    else [])

/-- `Turtle.prototype.Turn(phi)`: yaw; `left = cross(normal, heading)`,
`heading = rotateNormal(heading, left, normal, phi * Degree)`. -/
noncomputable def Turn (t : TurtleState) (phi : ℝ) : TurtleState :=
  { t with heading :=
      rotateNormal t.heading (cross t.normal t.heading) t.normal (phi * Degree) }

/-- `Turtle.prototype.Roll(psi)`: roll; `right = cross(heading, normal)`,
`normal = rotateNormal(normal, right, heading, psi * Degree)`. -/
noncomputable def Roll (t : TurtleState) (psi : ℝ) : TurtleState :=
  { t with normal :=
      rotateNormal t.normal (cross t.heading t.normal) t.heading (psi * Degree) }

/-- `Turtle.prototype.Dive(theta)`: pitch; `left = cross(normal, heading)`
is computed once, the normal is rotated toward the heading, and the new
heading is `cross(left, newnormal)` using that pre-rotation `left`. -/
noncomputable def Dive (t : TurtleState) (theta : ℝ) : TurtleState :=
  let left := cross t.normal t.heading
  let newnormal := rotateNormal t.normal t.heading left (theta * Degree)
  { t with normal := newnormal, heading := cross left newnormal }

/-- Pen-state setters (`PenActive`, `PenDown`, `PenUp`, `SetPenWidth`,
`SetPenStyle`). -/
def PenActive (t : TurtleState) (b : Bool) : TurtleState := { t with pen := b }

def PenDown (t : TurtleState) : TurtleState := { t with pen := true }

def PenUp (t : TurtleState) : TurtleState := { t with pen := false }

def SetPenWidth (t : TurtleState) (w : ℝ) : TurtleState := { t with penWidth := w }

def SetPenStyle (t : TurtleState) (c : String) : TurtleState := { t with penStyle := c }

/-- `Turtle.prototype.Segment(d, psi, phi)`: `Move(d); Roll(psi); Turn(phi)`. -/
noncomputable def Segment (t : TurtleState) (d psi phi : ℝ) : TurtleState :=
  Turn (Roll (Move t d).1 psi) phi

/-! Derived points of `DrawTurtle`, exactly the locals of the source:
`left`, `alpha = 30 * Degree`, `a = 2/3 * unit * cos(alpha)`, then
`nose`, `back`, `port`, `star`, `fin` as linear combinations. -/

/-- The derived `left = cross(normal, heading)` of `DrawTurtle`. -/
def leftOf (t : TurtleState) : Vec3 := cross t.normal t.heading

/-- Half nose angle of the glyph, `alpha = 30 * Degree`. -/
noncomputable def alphaDT : ℝ := 30 * Degree

/-- Distance from center to tip of nose, `a = 2/3 * h * ca` with `h = unit`. -/
noncomputable def aOf (t : TurtleState) : ℝ := 2 / 3 * t.unit * Real.cos alphaDT

/-- Nose point `nose = linear(1, position, a, heading)`. -/
noncomputable def noseOf (t : TurtleState) : Vec3 :=
  linear 1 t.position (aOf t) t.heading

/-- Back point `back = linear(1, nose, -h * ca, heading)`. -/
noncomputable def backOf (t : TurtleState) : Vec3 :=
  linear 1 (noseOf t) (-(t.unit * Real.cos alphaDT)) t.heading

/-- Port-side tip `port = linear(1, back, h * sa, left)`. -/
noncomputable def portOf (t : TurtleState) : Vec3 :=
  linear 1 (backOf t) (t.unit * Real.sin alphaDT) (leftOf t)

/-- Starboard-side tip `star = linear(1, back, -h * sa, left)`. -/
noncomputable def starOf (t : TurtleState) : Vec3 :=
  linear 1 (backOf t) (-(t.unit * Real.sin alphaDT)) (leftOf t)

/-- Fin tip `fin = linear(1, back, h * sa, normal)`. -/
noncomputable def finOf (t : TurtleState) : Vec3 :=
  linear 1 (backOf t) (t.unit * Real.sin alphaDT) t.normal

/-- Canvas point of the starboard eye stroke:
`(position[y] + a/2*heading[y] + (star[y]-back[y])/7,
  position[x] + a/2*heading[x] + (star[x]-back[x])/7)`. -/
noncomputable def eyeStar (t : TurtleState) : ℝ × ℝ :=
  (t.position.y + aOf t / 2 * t.heading.y + ((starOf t).y - (backOf t).y) / 7,
   t.position.x + aOf t / 2 * t.heading.x + ((starOf t).x - (backOf t).x) / 7)

/-- Canvas point of the port eye stroke. -/
noncomputable def eyePort (t : TurtleState) : ℝ × ℝ :=
  (t.position.y + aOf t / 2 * t.heading.y + ((portOf t).y - (backOf t).y) / 7,
   t.position.x + aOf t / 2 * t.heading.x + ((portOf t).x - (backOf t).x) / 7)

/-- Canvas target of the port-side cross-hair stroke:
`(position[y] + (port[y]-nose[y])/5, position[x] + (port[x]-nose[x])/5)`. -/
noncomputable def crossPortTarget (t : TurtleState) : ℝ × ℝ :=
  (t.position.y + ((portOf t).y - (noseOf t).y) / 5,
   t.position.x + ((portOf t).x - (noseOf t).x) / 5)

/-- Canvas target of the starboard-side cross-hair stroke. -/
noncomputable def crossStarTarget (t : TurtleState) : ℝ × ℝ :=
  (t.position.y + ((starOf t).y - (noseOf t).y) / 5,
   t.position.x + ((starOf t).x - (noseOf t).x) / 5)

/-- Commands of the eyes decoration (`normal[z] >= 0` branch of the
wing-decoration code): a white stroke at the starboard eye point, then a
`c`-colored stroke at the port eye point. -/
noncomputable def eyesCmds (t : TurtleState) (c : String) : List Cmd :=
  [Cmd.save, Cmd.setLineWidth 2,
   Cmd.beginPath,
   Cmd.moveTo (eyeStar t).1 (eyeStar t).2,
   Cmd.lineTo (eyeStar t).1 (eyeStar t).2,
   Cmd.setStrokeStyle "white", Cmd.stroke,
   Cmd.beginPath,
   Cmd.moveTo (eyePort t).1 (eyePort t).2,
   Cmd.lineTo (eyePort t).1 (eyePort t).2,
   Cmd.setStrokeStyle c, Cmd.stroke,
   Cmd.restore]

/-- Commands of the cross-hair decoration (`normal[z] < 0` branch): a
`c`-colored stroke from the position toward the port-side target, then a
white stroke toward the starboard-side target. -/
noncomputable def crossHairCmds (t : TurtleState) (c : String) : List Cmd :=
  [Cmd.beginPath,
   Cmd.moveTo t.position.y t.position.x,
   Cmd.lineTo (crossPortTarget t).1 (crossPortTarget t).2,
   Cmd.setStrokeStyle c, Cmd.stroke,
   Cmd.beginPath,
   Cmd.moveTo t.position.y t.position.x,
   Cmd.lineTo (crossStarTarget t).1 (crossStarTarget t).2,
   Cmd.setStrokeStyle "white", Cmd.stroke]

/-- Wing decoration: eyes when `normal[z] >= 0`, cross-hair otherwise. -/
noncomputable def wingDecorationCmds (t : TurtleState) (c : String) : List Cmd :=
  if 0 ≤ t.normal.z then eyesCmds t c else crossHairCmds t c

/-- Commands of the inner function `drawWings`: fill the starboard wing
with `c`, fill the port wing white, draw the decoration, then stroke the
starboard wing's edge white and the port wing's edge with `c`. -/
noncomputable def wingsCmds (t : TurtleState) (c : String) : List Cmd :=
  [Cmd.beginPath,
   Cmd.moveTo (noseOf t).y (noseOf t).x,
   Cmd.lineTo (backOf t).y (backOf t).x,
   Cmd.lineTo (starOf t).y (starOf t).x,
   Cmd.closePath, Cmd.setFillStyle c, Cmd.fill,
   Cmd.beginPath,
   Cmd.moveTo (noseOf t).y (noseOf t).x,
   Cmd.lineTo (backOf t).y (backOf t).x,
   Cmd.lineTo (portOf t).y (portOf t).x,
   Cmd.closePath, Cmd.setFillStyle "white", Cmd.fill]
  ++ wingDecorationCmds t c
  ++ [Cmd.beginPath,
      Cmd.moveTo (noseOf t).y (noseOf t).x,
      Cmd.lineTo (starOf t).y (starOf t).x,
      Cmd.lineTo (backOf t).y (backOf t).x,
      Cmd.setStrokeStyle "white", Cmd.stroke,
      Cmd.beginPath,
      Cmd.moveTo (noseOf t).y (noseOf t).x,
      Cmd.lineTo (portOf t).y (portOf t).x,
      Cmd.lineTo (backOf t).y (backOf t).x,
      Cmd.setStrokeStyle c, Cmd.stroke]

/-- Commands of the inner function `drawFinFace(fc)`. -/
noncomputable def drawFinFaceCmds (t : TurtleState) (fc : String) : List Cmd :=
  [Cmd.beginPath,
   Cmd.moveTo t.position.y t.position.x,
   Cmd.lineTo (finOf t).y (finOf t).x,
   Cmd.lineTo (backOf t).y (backOf t).x,
   Cmd.closePath, Cmd.setFillStyle fc, Cmd.fill]

/-- Commands of the inner function `drawFinEdge(fc)`. -/
noncomputable def drawFinEdgeCmds (t : TurtleState) (fc : String) : List Cmd :=
  [Cmd.beginPath,
   Cmd.moveTo t.position.y t.position.x,
   Cmd.lineTo (finOf t).y (finOf t).x,
   Cmd.lineTo (backOf t).y (backOf t).x,
   Cmd.closePath, Cmd.setStrokeStyle fc, Cmd.stroke]

/-- Commands of the inner function `drawFin`: when `left[z] >= 0`, fill
the fin face white and stroke its edge with `c`; otherwise stroke the
edge white and fill the face with `c`. -/
noncomputable def finCmds (t : TurtleState) (c : String) : List Cmd :=
  if 0 ≤ (leftOf t).z then
    drawFinFaceCmds t "white" ++ drawFinEdgeCmds t c
  else
    drawFinEdgeCmds t "white" ++ drawFinFaceCmds t c

/-- `Turtle.prototype.DrawTurtle(c)`: the turtle fields are only read,
never assigned; the canvas receives a style header, then — depending on
the sign of `normal[z]` — the wings then the fin, or the fin then the
wings, and a final `restore`. -/
noncomputable def DrawTurtle (t : TurtleState) (c : String) : TurtleState × List Cmd :=
  (t,
   [Cmd.save, Cmd.setLineWidth 1, Cmd.setLineCap "round", Cmd.setLineJoin "round"]
   ++ (if 0 ≤ t.normal.z then wingsCmds t c ++ finCmds t c
       else finCmds t c ++ wingsCmds t c)
   ++ [Cmd.restore])

/-- The three frame rotations, as abstract operations (for quantifying
over finite sequences of `Turn`/`Roll`/`Dive` calls). -/
inductive MotionOp where
  | turn (phi : ℝ)
  | roll (psi : ℝ)
  | dive (theta : ℝ)

/-- Apply one frame rotation. -/
noncomputable def applyMotion (t : TurtleState) : MotionOp → TurtleState
  | MotionOp.turn phi => Turn t phi
  | MotionOp.roll psi => Roll t psi
  | MotionOp.dive theta => Dive t theta

/-- Apply a finite sequence of frame rotations, in order. -/
noncomputable def applyMotions (t : TurtleState) (ops : List MotionOp) : TurtleState :=
  ops.foldl applyMotion t

/-- Every state-mutating public operation of a turtle (for quantifying
over reachable states). -/
inductive TOp where
  | move (d : ℝ)
  | turn (phi : ℝ)
  | roll (psi : ℝ)
  | dive (theta : ℝ)
  | segment (d psi phi : ℝ)
  | penActive (b : Bool)
  | penDown
  | penUp
  | setPenWidth (w : ℝ)
  | setPenStyle (c : String)
  | drawTurtle (c : String)
  | home

/-- Apply one public operation (ignoring the canvas trace). -/
noncomputable def runOp (t : TurtleState) : TOp → TurtleState
  | TOp.move d => (Move t d).1
  | TOp.turn phi => Turn t phi
  | TOp.roll psi => Roll t psi
  | TOp.dive theta => Dive t theta
  | TOp.segment d psi phi => Segment t d psi phi
  | TOp.penActive b => PenActive t b
  | TOp.penDown => PenDown t
  | TOp.penUp => PenUp t
  | TOp.setPenWidth w => SetPenWidth t w
  | TOp.setPenStyle c => SetPenStyle t c
  | TOp.drawTurtle c => (DrawTurtle t c).1
  | TOp.home => Home t

/-- Apply a finite sequence of public operations, in order. -/
noncomputable def runOps (t : TurtleState) (ops : List TOp) : TurtleState :=
  ops.foldl runOp t

/-- Orthonormality of a turtle's frame, squared form. -/
def Ortho (t : TurtleState) : Prop :=
  dot t.heading t.heading = 1 ∧ dot t.normal t.normal = 1 ∧
    dot t.normal t.heading = 0

/-- Stroke styles issued in a command list, in order. -/
def strokeStyles : List Cmd → List String
  | [] => []
  | Cmd.setStrokeStyle s :: rest => s :: strokeStyles rest
  | _ :: rest => strokeStyles rest

/-- Stroked segments of a command list: for each `stroke`, the stroke
style and `lineTo` target in effect (initial style `black`, the canvas
default; initial target the origin). -/
def strokesAux : String → ℝ × ℝ → List Cmd → List (String × (ℝ × ℝ))
  | _, _, [] => []
  | _, tg, Cmd.setStrokeStyle s :: rest => strokesAux s tg rest
  | st, _, Cmd.lineTo a b :: rest => strokesAux st (a, b) rest
  | st, tg, Cmd.stroke :: rest => (st, tg) :: strokesAux st tg rest
  | st, tg, _ :: rest => strokesAux st tg rest

/-- Stroked segments of a command list, from the default canvas state. -/
def strokes (cmds : List Cmd) : List (String × (ℝ × ℝ)) :=
  strokesAux "black" (0, 0) cmds

/-- Fill styles issued in a command list, in order. -/
def fillStyles : List Cmd → List String
  | [] => []
  | Cmd.setFillStyle s :: rest => s :: fillStyles rest
  | _ :: rest => fillStyles rest

/-- A concrete turtle state whose normal points away from the viewer
(`normal[z] = -1 < 0`). -/
def tNegNormal : TurtleState :=
  { position := ⟨0, 0, 0⟩
    heading := ⟨0, 1, 0⟩
    normal := ⟨0, 0, -1⟩
    pen := true
    penStyle := "black"
    penWidth := 2
    unit := 30
    home := ⟨0, 0, 0⟩ }

/-- A concrete turtle state whose derived left vector has
`left[z] = cross(normal, heading)[z] = -1 < 0`. -/
def tNegLeft : TurtleState :=
  { position := ⟨0, 0, 0⟩
    heading := ⟨1, 0, 0⟩
    normal := ⟨0, 1, 0⟩
    pen := true
    penStyle := "black"
    penWidth := 2
    unit := 30
    home := ⟨0, 0, 0⟩ }

/-- Modelled from the spec: the cross-hair decoration as claim C3
describes it, with the stroke colors of the two wing sides swapped
relative to the eyes case — the starboard side (stroked white in the eyes
case) stroked with the color `c`, and the port side (stroked `c` in the
eyes case) stroked white.  This is the claim's version of the decoration,
kept separate for comparison with the source's `crossHairCmds`. -/
noncomputable def crossHairCmdsClaimC3 (t : TurtleState) (c : String) : List Cmd :=
  [Cmd.beginPath,
   Cmd.moveTo t.position.y t.position.x,
   Cmd.lineTo (crossPortTarget t).1 (crossPortTarget t).2,
   Cmd.setStrokeStyle "white", Cmd.stroke,
   Cmd.beginPath,
   Cmd.moveTo t.position.y t.position.x,
   Cmd.lineTo (crossStarTarget t).1 (crossStarTarget t).2,
   Cmd.setStrokeStyle c, Cmd.stroke]

/-! Basic algebra of `dot`, `cross` and `linear`. -/

theorem dot_comm (u v : Vec3) : dot u v = dot v u := by
  simp only [dot]; ring

theorem dot_linear_left (a : ℝ) (u : Vec3) (b : ℝ) (v w : Vec3) :
    dot (linear a u b v) w = a * dot u w + b * dot v w := by
  simp only [dot, linear]; ring

theorem dot_linear_right (w : Vec3) (a : ℝ) (u : Vec3) (b : ℝ) (v : Vec3) :
    dot w (linear a u b v) = a * dot w u + b * dot w v := by
  simp only [dot, linear]; ring

theorem dot_linear_linear (a : ℝ) (u : Vec3) (b : ℝ) (v : Vec3)
    (a' : ℝ) (u' : Vec3) (b' : ℝ) (v' : Vec3) :
    dot (linear a u b v) (linear a' u' b' v') =
      a * a' * dot u u' + a * b' * dot u v' + b * a' * dot v u' + b * b' * dot v v' := by
  simp only [dot, linear]; ring

theorem dot_cross_left (u v : Vec3) : dot (cross u v) u = 0 := by
  simp only [dot, cross]; ring

theorem dot_cross_right (u v : Vec3) : dot (cross u v) v = 0 := by
  simp only [dot, cross]; ring

theorem cross_dot_self (u v : Vec3) :
    dot (cross u v) (cross u v) = dot u u * dot v v - dot u v ^ 2 := by
  simp only [dot, cross]; ring

theorem cross_linear_right (w : Vec3) (a : ℝ) (u : Vec3) (b : ℝ) (v : Vec3) :
    cross w (linear a u b v) = linear a (cross w u) b (cross w v) := by
  simp only [cross, linear]; ext <;> ring

theorem cross_cross_self (u v : Vec3) :
    cross u (cross u v) = linear (dot u v) u (-(dot u u)) v := by
  simp only [dot, cross, linear]; ext <;> ring

/-! Field equations of the motion primitives (all definitional). -/

theorem Turn_heading (t : TurtleState) (phi : ℝ) :
    (Turn t phi).heading =
      linear (Real.cos (phi * Degree)) t.heading (Real.sin (phi * Degree))
        (cross t.normal t.heading) := rfl

theorem Turn_normal (t : TurtleState) (phi : ℝ) : (Turn t phi).normal = t.normal := rfl

theorem Roll_normal (t : TurtleState) (psi : ℝ) :
    (Roll t psi).normal =
      linear (Real.cos (psi * Degree)) t.normal (Real.sin (psi * Degree))
        (cross t.heading t.normal) := rfl

theorem Roll_heading (t : TurtleState) (psi : ℝ) : (Roll t psi).heading = t.heading := rfl

theorem Dive_normal (t : TurtleState) (theta : ℝ) :
    (Dive t theta).normal =
      linear (Real.cos (theta * Degree)) t.normal (Real.sin (theta * Degree))
        t.heading := rfl

theorem Dive_heading (t : TurtleState) (theta : ℝ) :
    (Dive t theta).heading =
      cross (cross t.normal t.heading)
        (linear (Real.cos (theta * Degree)) t.normal (Real.sin (theta * Degree))
          t.heading) := rfl

/-! Preservation of frame orthonormality by each rotation. -/

theorem ortho_turn (t : TurtleState) (phi : ℝ) (h : Ortho t) : Ortho (Turn t phi) := by
  obtain ⟨hh, hn, hnh⟩ := h
  have hcs := Real.sin_sq_add_cos_sq (phi * Degree)
  refine ⟨?_, ?_, ?_⟩
  · rw [Turn_heading, dot_linear_linear, cross_dot_self,
      dot_comm t.heading (cross t.normal t.heading), dot_cross_right,
      hh, hn, hnh]
    nlinarith [hcs]
  · rw [Turn_normal]; exact hn
  · rw [Turn_normal, Turn_heading, dot_linear_right, hnh,
      dot_comm t.normal (cross t.normal t.heading), dot_cross_left]
    ring

theorem ortho_roll (t : TurtleState) (psi : ℝ) (h : Ortho t) : Ortho (Roll t psi) := by
  obtain ⟨hh, hn, hnh⟩ := h
  have hcs := Real.sin_sq_add_cos_sq (psi * Degree)
  have hhn : dot t.heading t.normal = 0 := by rw [dot_comm]; exact hnh
  refine ⟨?_, ?_, ?_⟩
  · rw [Roll_heading]; exact hh
  · rw [Roll_normal, dot_linear_linear, cross_dot_self,
      dot_comm t.normal (cross t.heading t.normal), dot_cross_right,
      hh, hn, hhn]
    nlinarith [hcs]
  · rw [Roll_normal, Roll_heading, dot_linear_left, hnh, dot_cross_left]
    ring

theorem ortho_dive (t : TurtleState) (theta : ℝ) (h : Ortho t) : Ortho (Dive t theta) := by
  obtain ⟨hh, hn, hnh⟩ := h
  have hcs := Real.sin_sq_add_cos_sq (theta * Degree)
  have hhn : dot t.heading t.normal = 0 := by rw [dot_comm]; exact hnh
  refine ⟨?_, ?_, ?_⟩
  · rw [Dive_heading, cross_dot_self, cross_dot_self, dot_linear_linear,
      dot_linear_right, dot_cross_left, dot_cross_right,
      hh, hn, hnh, hhn]
    nlinarith [hcs]
  · rw [Dive_normal, dot_linear_linear, hh, hn, hnh, hhn]
    nlinarith [hcs]
  · rw [Dive_normal, Dive_heading, dot_comm, dot_cross_right]

/-- The initial frame is orthonormal. -/
theorem ortho_initial (x0 y0 u : ℝ) : Ortho (initialTurtle x0 y0 u) := by
  refine ⟨?_, ?_, ?_⟩ <;> simp [Ortho, dot, initialTurtle]

/-- Orthonormality is preserved by any sequence of rotations. -/
theorem ortho_applyMotions (t : TurtleState) (ops : List MotionOp) (h : Ortho t) :
    Ortho (applyMotions t ops) := by
  induction ops generalizing t with
  | nil => exact h
  | cons op rest ih =>
    cases op with
    | turn phi => exact ih _ (ortho_turn t phi h)
    | roll psi => exact ih _ (ortho_roll t psi h)
    | dive theta => exact ih _ (ortho_dive t theta h)

/-- Claim C1: for every finite sequence of Turn, Roll and Dive calls
applied from the canonical frame (heading = (0,1,0), normal = (0,0,1)),
after each call the frame satisfies |heading| = 1, |normal| = 1 and
heading . normal = 0, exactly over real arithmetic (each intermediate
state is `applyMotions` of a prefix of the sequence, so quantifying over
all sequences covers the state after every call). -/
theorem frame_orthonormal_after_motions (x0 y0 u : ℝ) (ops : List MotionOp) :
    norm3 (applyMotions (initialTurtle x0 y0 u) ops).heading = 1 ∧
    norm3 (applyMotions (initialTurtle x0 y0 u) ops).normal = 1 ∧
    dot (applyMotions (initialTurtle x0 y0 u) ops).heading
      (applyMotions (initialTurtle x0 y0 u) ops).normal = 0 := by
  obtain ⟨hh, hn, hnh⟩ :=
    ortho_applyMotions (initialTurtle x0 y0 u) ops (ortho_initial x0 y0 u)
  refine ⟨?_, ?_, ?_⟩
  · rw [norm3, hh, Real.sqrt_one]
  · rw [norm3, hn, Real.sqrt_one]
  · rw [dot_comm]; exact hnh

/-- Claim C7: Move(d) then Move(-d) restores the position; Turn(phi) then
Turn(-phi) restores the heading; Roll(psi) then Roll(-psi) restores the
normal — exactly over real arithmetic, for an orthonormal heading/normal
pair. -/
theorem move_turn_roll_inverses (t : TurtleState) (d phi psi : ℝ) (h : Ortho t) :
    (Move (Move t d).1 (-d)).1.position = t.position ∧
    (Turn (Turn t phi) (-phi)).heading = t.heading ∧
    (Roll (Roll t psi) (-psi)).normal = t.normal := by
  obtain ⟨hh, hn, hnh⟩ := h
  have hhn : dot t.heading t.normal = 0 := by rw [dot_comm]; exact hnh
  refine ⟨?_, ?_, ?_⟩
  · show linear 1 (linear 1 t.position (d * t.unit) t.heading)
      (-d * t.unit) t.heading = t.position
    ext <;> simp only [linear] <;> ring
  · have hcs := Real.sin_sq_add_cos_sq (phi * Degree)
    rw [Turn_heading, Turn_normal, Turn_heading, neg_mul, Real.cos_neg,
      Real.sin_neg, cross_linear_right, cross_cross_self, hnh, hn]
    ext
    · simp only [linear]; linear_combination t.heading.x * hcs
    · simp only [linear]; linear_combination t.heading.y * hcs
    · simp only [linear]; linear_combination t.heading.z * hcs
  · have hcs := Real.sin_sq_add_cos_sq (psi * Degree)
    rw [Roll_normal, Roll_heading, Roll_normal, neg_mul, Real.cos_neg,
      Real.sin_neg, cross_linear_right, cross_cross_self, hhn, hh]
    ext
    · simp only [linear]; linear_combination t.normal.x * hcs
    · simp only [linear]; linear_combination t.normal.y * hcs
    · simp only [linear]; linear_combination t.normal.z * hcs

/-- Witness for C7 at the canonical initial state. -/
theorem move_turn_roll_inverses_witness :
    (Move (Move (initialTurtle 0 0 30) 2).1 (-2)).1.position =
      (initialTurtle 0 0 30).position ∧
    (Turn (Turn (initialTurtle 0 0 30) 45) (-45)).heading =
      (initialTurtle 0 0 30).heading ∧
    (Roll (Roll (initialTurtle 0 0 30) 60) (-60)).normal =
      (initialTurtle 0 0 30).normal :=
  move_turn_roll_inverses (initialTurtle 0 0 30) 2 45 60 (ortho_initial 0 0 30)

/-- Claim C4: Dive(theta) computes left = cross(normal, heading) before
any update, sets the new normal to cos * normal + sin * heading, sets the
heading to cross of that pre-rotation left with the new normal, and
leaves the position (and every non-frame field) unchanged. -/
theorem dive_formula (t : TurtleState) (theta : ℝ) :
    (Dive t theta).normal =
      linear (Real.cos (theta * Degree)) t.normal (Real.sin (theta * Degree))
        t.heading ∧
    (Dive t theta).heading = cross (cross t.normal t.heading) ((Dive t theta).normal) ∧
    (Dive t theta).position = t.position ∧
    (Dive t theta).pen = t.pen ∧
    (Dive t theta).penStyle = t.penStyle ∧
    (Dive t theta).penWidth = t.penWidth ∧
    (Dive t theta).unit = t.unit ∧
    (Dive t theta).home = t.home :=
  ⟨rfl, rfl, rfl, rfl, rfl, rfl, rfl, rfl⟩

/-- Claim C5: Move(d) sets the position to position + (d * unit) * heading,
leaves heading and normal unchanged, and emits a single stroked segment
from the old to the new projected position with the current pen style and
width exactly when the pen is active. -/
theorem move_spec (t : TurtleState) (d : ℝ) :
    (Move t d).1.position = linear 1 t.position (d * t.unit) t.heading ∧
    (Move t d).1.heading = t.heading ∧
    (Move t d).1.normal = t.normal ∧
    (t.pen = true → (Move t d).2 =
      [Cmd.save, Cmd.setLineCap "round", Cmd.setLineJoin "round",
        Cmd.setLineWidth t.penWidth, Cmd.setStrokeStyle t.penStyle,
        Cmd.beginPath,
        Cmd.moveTo t.position.y t.position.x,
        Cmd.lineTo (linear 1 t.position (d * t.unit) t.heading).y
          (linear 1 t.position (d * t.unit) t.heading).x,
        Cmd.stroke, Cmd.restore]) ∧
    (t.pen = false → (Move t d).2 = []) := by
  refine ⟨rfl, rfl, rfl, fun hp => ?_, fun hp => ?_⟩ <;> simp [Move, hp]

/-- Witness for C5: pen-down and pen-up evaluations at the initial state. -/
theorem move_spec_witness :
    (Move (initialTurtle 0 0 30) 1).2 =
      [Cmd.save, Cmd.setLineCap "round", Cmd.setLineJoin "round",
        Cmd.setLineWidth (initialTurtle 0 0 30).penWidth,
        Cmd.setStrokeStyle (initialTurtle 0 0 30).penStyle,
        Cmd.beginPath,
        Cmd.moveTo (initialTurtle 0 0 30).position.y (initialTurtle 0 0 30).position.x,
        Cmd.lineTo
          (linear 1 (initialTurtle 0 0 30).position (1 * (initialTurtle 0 0 30).unit)
            (initialTurtle 0 0 30).heading).y
          (linear 1 (initialTurtle 0 0 30).position (1 * (initialTurtle 0 0 30).unit)
            (initialTurtle 0 0 30).heading).x,
        Cmd.stroke, Cmd.restore] ∧
    (Move (PenUp (initialTurtle 0 0 30)) 1).2 = [] :=
  ⟨(move_spec (initialTurtle 0 0 30) 1).2.2.2.1 rfl,
    (move_spec (PenUp (initialTurtle 0 0 30)) 1).2.2.2.2 rfl⟩

/-- The `home` field is never mutated by any public operation. -/
theorem runOps_home (t : TurtleState) (ops : List TOp) :
    (runOps t ops).home = t.home := by
  induction ops generalizing t with
  | nil => rfl
  | cons op rest ih =>
    have hstep : (runOp t op).home = t.home := by cases op <;> rfl
    calc (runOps t (op :: rest)).home = (runOps (runOp t op) rest).home := rfl
      _ = (runOp t op).home := ih _
      _ = t.home := hstep

/-- Claim C8: from every reachable state, Home() sets the position to the
construction-time home point and the frame to the canonical triple,
exactly, and a second Home() changes nothing. -/
theorem home_resets (x0 y0 u : ℝ) (ops : List TOp) :
    (Home (runOps (initialTurtle x0 y0 u) ops)).position = ⟨x0, y0, 0⟩ ∧
    (Home (runOps (initialTurtle x0 y0 u) ops)).heading = ⟨0, 1, 0⟩ ∧
    (Home (runOps (initialTurtle x0 y0 u) ops)).normal = ⟨0, 0, 1⟩ ∧
    Home (Home (runOps (initialTurtle x0 y0 u) ops)) =
      Home (runOps (initialTurtle x0 y0 u) ops) :=
  ⟨runOps_home (initialTurtle x0 y0 u) ops, rfl, rfl, rfl⟩

/-- Claim C10: Turn, Roll and Dive leave the position unchanged, and
DrawTurtle leaves the entire turtle state unchanged. -/
theorem rotations_fix_position_draw_fixes_state (t : TurtleState)
    (phi psi theta : ℝ) (c : String) :
    (Turn t phi).position = t.position ∧
    (Roll t psi).position = t.position ∧
    (Dive t theta).position = t.position ∧
    (DrawTurtle t c).1 = t :=
  ⟨rfl, rfl, rfl, rfl⟩

/-- Claim C9: cross returns the standard 3D cross product with component
c equal to u[(c+1)%3]*v[(c+2)%3] - u[(c+2)%3]*v[(c+1)%3], is
anticommutative, and cross((0,0,1),(1,0,0)) = (0,1,0). -/
theorem cross_product_spec (u v : Vec3) :
    (∀ c : Fin 3, (cross u v).nth c.val =
      u.nth ((c.val + 1) % 3) * v.nth ((c.val + 2) % 3) -
        u.nth ((c.val + 2) % 3) * v.nth ((c.val + 1) % 3)) ∧
    cross u v = -(cross v u) ∧
    cross ⟨0, 0, 1⟩ ⟨1, 0, 0⟩ = ⟨0, 1, 0⟩ := by
  refine ⟨?_, ?_, ?_⟩
  · intro c
    fin_cases c <;> rfl
  · rw [Vec3.neg_def]
    ext <;> simp only [cross] <;> ring
  · ext <;> simp [cross]

/-- Claim C2: DrawTurtle issues all wing draw commands strictly before
the fin draw commands when normal[z] >= 0, and all fin draw commands
strictly before the wing draw commands when normal[z] < 0. -/
theorem draw_order (t : TurtleState) (c : String) :
    (0 ≤ t.normal.z → (DrawTurtle t c).2 =
      [Cmd.save, Cmd.setLineWidth 1, Cmd.setLineCap "round", Cmd.setLineJoin "round"]
        ++ wingsCmds t c ++ finCmds t c ++ [Cmd.restore]) ∧
    (t.normal.z < 0 → (DrawTurtle t c).2 =
      [Cmd.save, Cmd.setLineWidth 1, Cmd.setLineCap "round", Cmd.setLineJoin "round"]
        ++ finCmds t c ++ wingsCmds t c ++ [Cmd.restore]) := by
  constructor
  · intro h
    simp only [DrawTurtle]
    rw [if_pos h]
    simp [List.append_assoc]
  · intro h
    simp only [DrawTurtle]
    rw [if_neg (not_le.mpr h)]
    simp [List.append_assoc]

/-- Witness for C2: draw order at states with normal[z] = 1 and
normal[z] = -1. -/
theorem draw_order_witness :
    (DrawTurtle (initialTurtle 0 0 30) "red").2 =
      [Cmd.save, Cmd.setLineWidth 1, Cmd.setLineCap "round", Cmd.setLineJoin "round"]
        ++ wingsCmds (initialTurtle 0 0 30) "red"
        ++ finCmds (initialTurtle 0 0 30) "red" ++ [Cmd.restore] ∧
    (DrawTurtle tNegNormal "red").2 =
      [Cmd.save, Cmd.setLineWidth 1, Cmd.setLineCap "round", Cmd.setLineJoin "round"]
        ++ finCmds tNegNormal "red"
        ++ wingsCmds tNegNormal "red" ++ [Cmd.restore] :=
  ⟨(draw_order (initialTurtle 0 0 30) "red").1 zero_le_one,
    (draw_order tNegNormal "red").2 neg_one_lt_zero⟩

/-- Claim C6: with left = cross(normal, heading), DrawTurtle fills the
fin face white and strokes its edge in the color when left[z] >= 0, and
fills the face in the color and strokes the edge white when left[z] < 0. -/
theorem fin_color_choice (t : TurtleState) (c : String) :
    (0 ≤ (leftOf t).z →
      finCmds t c = drawFinFaceCmds t "white" ++ drawFinEdgeCmds t c ∧
      fillStyles (finCmds t c) = ["white"] ∧ strokeStyles (finCmds t c) = [c]) ∧
    ((leftOf t).z < 0 →
      finCmds t c = drawFinEdgeCmds t "white" ++ drawFinFaceCmds t c ∧
      fillStyles (finCmds t c) = [c] ∧ strokeStyles (finCmds t c) = ["white"]) := by
  constructor
  · intro h
    unfold finCmds
    rw [if_pos h]
    exact ⟨rfl, rfl, rfl⟩
  · intro h
    unfold finCmds
    rw [if_neg (not_le.mpr h)]
    exact ⟨rfl, rfl, rfl⟩

/-- Witness for C6 at states with left[z] = 0 and left[z] = -1. -/
theorem fin_color_choice_witness :
    (finCmds (initialTurtle 0 0 30) "red" =
        drawFinFaceCmds (initialTurtle 0 0 30) "white"
          ++ drawFinEdgeCmds (initialTurtle 0 0 30) "red" ∧
      fillStyles (finCmds (initialTurtle 0 0 30) "red") = ["white"] ∧
      strokeStyles (finCmds (initialTurtle 0 0 30) "red") = ["red"]) ∧
    (finCmds tNegLeft "red" =
        drawFinEdgeCmds tNegLeft "white" ++ drawFinFaceCmds tNegLeft "red" ∧
      fillStyles (finCmds tNegLeft "red") = ["red"] ∧
      strokeStyles (finCmds tNegLeft "red") = ["white"]) :=
  ⟨(fin_color_choice (initialTurtle 0 0 30) "red").1
      (by norm_num [leftOf, cross, initialTurtle]),
    (fin_color_choice tNegLeft "red").2
      (by norm_num [leftOf, cross, tNegLeft])⟩

/-- Claim C3 (amended): DrawTurtle draws the eyes decoration when
normal[z] >= 0 and the cross-hair decoration when normal[z] < 0, and in
both cases the starboard-side stroke is white and the port-side stroke
uses the color — the side-to-color assignment is the same in the two
cases, only the order in which the two sides are stroked flips
(starboard first for the eyes, port first for the cross-hair). -/
theorem decoration_choice (t : TurtleState) (c : String) :
    (0 ≤ t.normal.z → wingDecorationCmds t c = eyesCmds t c ∧
      strokes (eyesCmds t c) = [("white", eyeStar t), (c, eyePort t)]) ∧
    (t.normal.z < 0 → wingDecorationCmds t c = crossHairCmds t c ∧
      strokes (crossHairCmds t c) =
        [(c, crossPortTarget t), ("white", crossStarTarget t)]) := by
  constructor
  · intro h
    unfold wingDecorationCmds
    rw [if_pos h]
    exact ⟨rfl, rfl⟩
  · intro h
    unfold wingDecorationCmds
    rw [if_neg (not_le.mpr h)]
    exact ⟨rfl, rfl⟩

/-- Witness for the amended C3 at states with normal[z] = 1 and
normal[z] = -1. -/
theorem decoration_choice_witness :
    (wingDecorationCmds (initialTurtle 0 0 30) "red" =
        eyesCmds (initialTurtle 0 0 30) "red" ∧
      strokes (eyesCmds (initialTurtle 0 0 30) "red") =
        [("white", eyeStar (initialTurtle 0 0 30)),
         ("red", eyePort (initialTurtle 0 0 30))]) ∧
    (wingDecorationCmds tNegNormal "red" = crossHairCmds tNegNormal "red" ∧
      strokes (crossHairCmds tNegNormal "red") =
        [("red", crossPortTarget tNegNormal),
         ("white", crossStarTarget tNegNormal)]) :=
  ⟨(decoration_choice (initialTurtle 0 0 30) "red").1 zero_le_one,
    (decoration_choice tNegNormal "red").2 neg_one_lt_zero⟩

/-- Counterexample to claim C3 as stated: at the concrete state with
normal[z] = -1 and color "red", the source's cross-hair decoration
strokes the port side "red" and the starboard side "white" — the same
side-to-color assignment as the eyes case — so it is not the decoration
with swapped stroke colors (`crossHairCmdsClaimC3`) that the claim
demands, and the two stroke targets are genuinely distinct points. -/
theorem decoration_swap_counterexample :
    strokes (wingDecorationCmds tNegNormal "red") =
      [("red", crossPortTarget tNegNormal), ("white", crossStarTarget tNegNormal)] ∧
    strokes (crossHairCmdsClaimC3 tNegNormal "red") =
      [("white", crossPortTarget tNegNormal), ("red", crossStarTarget tNegNormal)] ∧
    wingDecorationCmds tNegNormal "red" ≠ crossHairCmdsClaimC3 tNegNormal "red" ∧
    crossStarTarget tNegNormal ≠ crossPortTarget tNegNormal := by
  refine ⟨?_, rfl, ?_, ?_⟩
  · unfold wingDecorationCmds
    rw [if_neg (show ¬ (0 ≤ tNegNormal.normal.z) from not_le.mpr neg_one_lt_zero)]
    rfl
  · intro heq
    unfold wingDecorationCmds at heq
    rw [if_neg (show ¬ (0 ≤ tNegNormal.normal.z) from not_le.mpr neg_one_lt_zero)] at heq
    have h3 : (["red", "white"] : List String) = ["white", "red"] :=
      congrArg strokeStyles heq
    exact absurd h3 (by decide)
  · intro heq
    have h2 := congrArg Prod.snd heq
    have halpha : alphaDT = Real.pi / 6 := by
      unfold alphaDT Degree; ring
    have hsin : Real.sin alphaDT = 1 / 2 := by
      rw [halpha, Real.sin_pi_div_six]
    simp only [crossStarTarget, crossPortTarget, starOf, portOf, noseOf, backOf,
      leftOf, aOf, tNegNormal, cross, linear] at h2
    norm_num [hsin] at h2

end TurtleGraphics
